import Mathlib

/-!
Shallow embedding of `src/main.c` of the `ltop` process monitor.

The embedding models the pure logic of each C function over explicit data:
the `/proc` directory is a list of entry names plus a map from pid to the
optional contents (list of lines, as returned by `fgets`, possibly with a
trailing newline) of its `status` file; `/proc/meminfo` is an optional list
of lines; terminal input is an explicit key code; the monotonic clock is an
explicit millisecond timestamp.  Heap allocation is modelled as always
succeeding.  C `int`/`long` are modelled as `Int` and `size_t`/`unsigned
long` as `Nat` (the quantities involved — pids, row indices, kilobyte
counts — never approach the overflow range in any claim considered).
-/

namespace Ltop

/-- Model of C `isspace` in the default locale. -/
def isspace_char (c : Char) : Bool :=
  c = ' ' || c = '\t' || c = '\n' || c = '\x0b' || c = '\x0c' || c = '\r'

/-- The digit test used by `is_numeric_string` (main.c:63): `'0' <= c <= '9'`. -/
def is_digit_char (c : Char) : Bool :=
  ('0' ≤ c) && (c ≤ '9')

/-- Model of `strncmp(line, key, strlen(key)) == 0` (main.c:90 etc.):
the first `strlen(key)` characters of `line` equal `key` (lines here are
ASCII, so bytes and characters coincide). -/
def strncmp_eq (s k : String) : Bool :=
  decide (s.toList.take k.toList.length = k.toList)

/-- Function `is_numeric_string` (main.c:58-68): false on the empty string, true iff
every character is a decimal digit. -/
def is_numeric_string (s : String) : Bool :=
  !s.isEmpty && s.toList.all is_digit_char

/-- Value of a run of decimal digits. -/
def digits_val (cs : List Char) : Nat :=
  cs.foldl (fun a c => a * 10 + (c.toNat - '0'.toNat)) 0

/-- Model of C `atoi`: skip leading whitespace, optional sign, then the
leading run of digits (0 if there are none).  Overflow is not modelled:
directory entry names are pid-sized. -/
def atoi (s : String) : Int :=
  match s.toList.dropWhile isspace_char with
  | '-' :: rest => -(digits_val (rest.takeWhile is_digit_char) : Int)
  | '+' :: rest => (digits_val (rest.takeWhile is_digit_char) : Int)
  | t => (digits_val (t.takeWhile is_digit_char) : Int)

/-- Record `ProcessInfo` (main.c:20-25). `name` is bounded by the 127-char truncation
performed where it is filled in. -/
structure ProcessInfo where
  pid : Int
  name : String
  state : Char
  vm_rss_kb : Nat
deriving DecidableEq, Repr

/-- Default record used only to read fields out of an `Option ProcessInfo`
that is known to be `some`. -/
def procDefault : ProcessInfo := ⟨0, "", ' ', 0⟩

/-- Scanning state of the `read_process_info` line loop (main.c:85-87):
which of the three fields have been found, and their values. -/
structure ScanSt where
  name : Option String
  state : Option Char
  rss : Option Nat
deriving DecidableEq, Repr

/-- All three fields found: the loop break condition (main.c:119-121). -/
def ScanSt.allFound (st : ScanSt) : Bool :=
  st.name.isSome && st.state.isSome && st.rss.isSome

def scanInit : ScanSt := ⟨none, none, none⟩

/-- Name extraction (main.c:91-102): skip the 5-char `Name:` prefix and
following whitespace, copy at most 127 characters, cut at the first
newline. -/
def parse_name_field (line : String) : String :=
  ⟨(((line.toList.drop 5).dropWhile isspace_char).take 127).takeWhile
    (fun c => c ≠ '\n')⟩

/-- Model of `sscanf(s, "%lu", ...)` as used on the text after `VmRSS:`
(main.c:114): skip whitespace, then a nonempty digit run; fails otherwise.
(The sign acceptance of `strtoul` is elided: status files carry unsigned
values.) -/
def sscanf_lu (s : List Char) : Option Nat :=
  let t := (s.dropWhile isspace_char).takeWhile is_digit_char
  if t.isEmpty then none else some (digits_val t)

/-- One iteration of the `read_process_info` line loop (main.c:90-117):
the `else if` chain over the `Name:`, `State:` and `VmRSS:` prefixes. -/
def scan_line (line : String) (st : ScanSt) : ScanSt :=
  if st.name.isNone && strncmp_eq line "Name:" then
    { st with name := some (parse_name_field line) }
  else if st.state.isNone && strncmp_eq line "State:" then
    match (line.toList.drop 6).dropWhile isspace_char with
    | [] => st
    | c :: _ => { st with state := some c }
  else if st.rss.isNone && strncmp_eq line "VmRSS:" then
    match sscanf_lu (line.toList.drop 6) with
    | some n => { st with rss := some n }
    | none => st
  else st

/-- The `fgets` loop of `read_process_info` (main.c:89-122), with its early
`break` once all three fields have been found. -/
def scan_lines : List String → ScanSt → ScanSt
  | [], st => st
  | l :: ls, st =>
    let st2 := scan_line l st
    if st2.allFound then st2 else scan_lines ls st2

/-- Function `read_process_info` (main.c:70-137).  `file` is the contents of
`/proc/<pid>/status` (`none` when `fopen` fails).  Returns `none` exactly
when the C function returns `false`; otherwise the record with the
sentinel defaults of main.c:126-134 for missing fields. -/
def read_process_info (pid : Int) (file : Option (List String)) :
    Option ProcessInfo :=
  if pid ≤ 0 then none
  else
    match file with
    | none => none
    | some lines =>
      let st := scan_lines lines scanInit
      some { pid := pid, name := st.name.getD "?", state := st.state.getD '?',
             vm_rss_kb := st.rss.getD 0 }

/-- Record `SystemMemoryInfo` (main.c:27-35), fields in kB as parsed by
`sscanf("%ld")`, hence `Int`. -/
structure SystemMemoryInfo where
  mem_total_kb : Int
  mem_free_kb : Int
  mem_available_kb : Int
  mem_cached_kb : Int
  swap_total_kb : Int
  swap_free_kb : Int
  buffers_kb : Int
deriving DecidableEq, Repr

/-- The zero-fill of `memset` (main.c:144). -/
def memZero : SystemMemoryInfo := ⟨0, 0, 0, 0, 0, 0, 0⟩

/-- Model of the `%ld` conversion of `sscanf` applied to the text after a
recognized key (main.c:155 etc.): skip whitespace, optional sign, then a
nonempty digit run; on failure `sscanf` matches nothing and the field is
left unchanged. -/
def sscanf_ld (s : List Char) : Option Int :=
  match s.dropWhile isspace_char with
  | '-' :: rest =>
    let t := rest.takeWhile is_digit_char
    if t.isEmpty then none else some (-(digits_val t : Int))
  | '+' :: rest =>
    let t := rest.takeWhile is_digit_char
    if t.isEmpty then none else some (digits_val t : Int)
  | u =>
    let t := u.takeWhile is_digit_char
    if t.isEmpty then none else some (digits_val t : Int)

/-- One iteration of the `read_system_memory_info` line loop
(main.c:153-169): the `else if` chain over the seven recognized keys. -/
def parse_mem_line (m : SystemMemoryInfo) (line : String) : SystemMemoryInfo :=
  if strncmp_eq line "MemTotal:" then
    { m with mem_total_kb := (sscanf_ld (line.toList.drop 9)).getD m.mem_total_kb }
  else if strncmp_eq line "MemFree:" then
    { m with mem_free_kb := (sscanf_ld (line.toList.drop 8)).getD m.mem_free_kb }
  else if strncmp_eq line "MemAvailable:" then
    { m with mem_available_kb :=
        (sscanf_ld (line.toList.drop 13)).getD m.mem_available_kb }
  else if strncmp_eq line "Cached:" then
    { m with mem_cached_kb := (sscanf_ld (line.toList.drop 7)).getD m.mem_cached_kb }
  else if strncmp_eq line "SwapTotal:" then
    { m with swap_total_kb := (sscanf_ld (line.toList.drop 10)).getD m.swap_total_kb }
  else if strncmp_eq line "SwapFree:" then
    { m with swap_free_kb := (sscanf_ld (line.toList.drop 9)).getD m.swap_free_kb }
  else if strncmp_eq line "Buffers:" then
    { m with buffers_kb := (sscanf_ld (line.toList.drop 8)).getD m.buffers_kb }
  else m

/-- Function `read_system_memory_info` (main.c:139-174): zero-fill, then fold the
parser over the lines of `/proc/meminfo`; `none` iff `fopen` fails. -/
def read_system_memory_info (file : Option (List String)) :
    Option SystemMemoryInfo :=
  match file with
  | none => none
  | some lines => some (lines.foldl parse_mem_line memZero)

/-- Quantity `mem_used_mb` of `render_memory_info` (main.c:338-347): the C `double`
arithmetic is modelled exactly over `ℚ` — only the sign and the clamp
matter to the claims, and exact division preserves both. -/
def mem_used_mb (m : SystemMemoryInfo) : ℚ :=
  let u := (m.mem_total_kb : ℚ) / 1024 - (m.mem_free_kb : ℚ) / 1024 -
    (m.mem_cached_kb : ℚ) / 1024
  if u < 0 then 0 else u

/-- Quantity `swap_used_mb` of `render_memory_info` (main.c:342-351). -/
def swap_used_mb (m : SystemMemoryInfo) : ℚ :=
  let u := (m.swap_total_kb : ℚ) / 1024 - (m.swap_free_kb : ℚ) / 1024
  if u < 0 then 0 else u

/-- The `/proc` directory as seen by `collect_processes`: whether `opendir`
succeeds, the entry names in `readdir` order, and the optional contents of
each pid's `status` file. -/
structure ProcDir where
  canOpen : Bool
  entries : List String
  statusOf : Int → Option (List String)

/-- Loop state of `collect_processes` (main.c:185-188): current element
count, buffer capacity, number of `realloc` calls performed so far, and the
records accumulated in the buffer. -/
structure CollectSt where
  size : Nat
  capacity : Nat
  reallocs : Nat
  acc : List ProcessInfo
deriving Repr

/-- Constant `INITIAL_CAPACITY_SIZE` (main.c:18). -/
def INITIAL_CAPACITY_SIZE : Nat := 128

def collectInit : CollectSt := ⟨0, INITIAL_CAPACITY_SIZE, 0, []⟩

/-- One iteration of the `readdir` loop of `collect_processes`
(main.c:197-225): skip non-numeric names and non-positive pids, double the
buffer when full (before writing the candidate's slot), then keep the
record only if `read_process_info` succeeds. -/
def collect_step (statusOf : Int → Option (List String)) (st : CollectSt)
    (name : String) : CollectSt :=
  if !is_numeric_string name then st
  else
    let pid := atoi name
    if pid ≤ 0 then st
    else
      let st1 :=
        if st.size ≥ st.capacity then
          { st with capacity := st.capacity * 2, reallocs := st.reallocs + 1 }
        else st
      match read_process_info pid (statusOf pid) with
      | some p => { st1 with size := st1.size + 1, acc := st1.acc ++ [p] }
      | none => st1

/-- The whole `readdir` loop of `collect_processes` over a directory. -/
def collect_run (d : ProcDir) : CollectSt :=
  d.entries.foldl (collect_step d.statusOf) collectInit

/-- Function `collect_processes` (main.c:176-231): `none` iff `opendir` fails
(allocation is modelled as always succeeding); otherwise the accumulated
snapshot, whose length is the returned `*count`. -/
def collect_processes (d : ProcDir) : Option (List ProcessInfo) :=
  if d.canOpen then some (collect_run d).acc else none

/-- A directory entry that passes the name and pid filters of
main.c:198-204. -/
def is_candidate (e : String) : Bool :=
  is_numeric_string e && decide (0 < atoi e)

/-- The survival test of one directory entry, and the record it yields:
`none` when the entry is skipped (non-numeric, non-positive, or its status
read fails). -/
def cand_read (statusOf : Int → Option (List String)) (e : String) :
    Option ProcessInfo :=
  if is_candidate e then read_process_info (atoi e) (statusOf (atoi e))
  else none

/-- Record `AppState` (main.c:37-42); `last_update` is the monotonic clock reading
in milliseconds. -/
structure AppState where
  selected_index : Int
  should_quit : Bool
  needs_refresh : Bool
  last_update : Int
deriving DecidableEq, Repr

/-- Constant `REFRESH_INTERVAL_MS` (main.c:17). -/
def REFRESH_INTERVAL_MS : Int := 3000

/-- Function `should_refresh` (main.c:430-446) with the clock reading passed in:
returns the boolean result and the updated state (`last_update := now`
exactly on a `true` result). -/
def should_refresh (st : AppState) (now : Int) : Bool × AppState :=
  if now - st.last_update ≥ REFRESH_INTERVAL_MS || st.needs_refresh then
    (true, { st with last_update := now })
  else (false, st)

/-- The post-snapshot selection clamp inlined in `main` (main.c:485-491). -/
def clamp_selection (index : Int) (count : Nat) : Int :=
  if 0 < count then
    if (count : Int) ≤ index then (count : Int) - 1 else index
  else 0

/-- Quantity `visible_rows` of `render_process_list` (main.c:392-396): terminal
height minus the 7 header/footer rows, clamped to 0. -/
def visible_capacity (max_y : Int) : Int :=
  if max_y - 7 < 0 then 0 else max_y - 7

/-- Quantity `start_idx` of `render_process_list` (main.c:398-402). -/
def viewport_start (count : Nat) (selected cap : Int) : Int :=
  if 0 < count ∧ cap ≤ selected then selected - cap + 1 else 0

/-- The row loop of `render_process_list` (main.c:404-418): starting at
loop counter `i` with `n` iterations of budget left, emit the process
indices `i + start` while they stay below `count`. -/
def render_loop (count : Nat) (start : Int) : Nat → Int → List Int
  | 0, _ => []
  | n + 1, i =>
    if i + start < (count : Int) then
      (i + start) :: render_loop count start n (i + 1)
    else []

/-- The process indices actually drawn by `render_process_list` for a given
`start_idx` and (already clamped) `visible_rows`. -/
def displayed_indices (count : Nat) (start cap : Int) : List Int :=
  render_loop count start cap.toNat 0

/-- ncurses key codes and ASCII codes used in `handle_user_input`. -/
def KEY_UP_CODE : Int := 259

def KEY_DOWN_CODE : Int := 258

/-- Function `handle_user_input` (main.c:233-278) for one key `ch` (the `getch`
result): returns the updated state and `some i` exactly when the `'k'`
branch invokes `terminate_process_with_dialog` on `processes[i]`. -/
def handle_user_input (st : AppState) (count : Nat) (ch : Int) :
    AppState × Option Nat :=
  if ch = 113 ∨ ch = 81 then -- 'q' / 'Q'
    ({ st with should_quit := true }, none)
  else if ch = KEY_UP_CODE then
    if 0 < st.selected_index then
      ({ st with selected_index := st.selected_index - 1,
                 needs_refresh := true }, none)
    else (st, none)
  else if ch = KEY_DOWN_CODE then
    if st.selected_index < (count : Int) - 1 then
      ({ st with selected_index := st.selected_index + 1,
                 needs_refresh := true }, none)
    else (st, none)
  else if ch = 107 ∨ ch = 75 then -- 'k' / 'K'
    if 0 < count ∧ 0 ≤ st.selected_index ∧ st.selected_index < (count : Int)
    then ({ st with needs_refresh := true }, some st.selected_index.toNat)
    else (st, none)
  else if ch = 114 ∨ ch = 82 then -- 'r' / 'R'
    ({ st with needs_refresh := true }, none)
  else (st, none)

/-- Outcome of the one `kill` call, as the OS would report it (`none` for
success, `some msg` for failure with `strerror` text `msg`). -/
inductive KillResult where
  | ok : KillResult
  | err : String → KillResult
deriving DecidableEq, Repr

/-- Observable effect of `terminate_process_with_dialog`: the signals
submitted via `kill`, and the result text written into the dialog window. -/
structure DialogOutcome where
  signals_sent : List (Int × Int)
  messages : List String
deriving DecidableEq, Repr

def SIGTERM : Int := 15

/-- Function `terminate_process_with_dialog` (main.c:280-325) as a function of the
dialog keypress `choice` (the `wgetch` result) and the outcome the OS gives
the single `kill(pid, SIGTERM)` call: on `'1'` (code 49) exactly that one
signal is submitted and the result lines of main.c:308-316 are displayed;
on any other key nothing is submitted and nothing displayed. -/
def terminate_process_with_dialog (proc : ProcessInfo) (choice : Int)
    (kr : KillResult) : DialogOutcome :=
  if choice = 49 then
    match kr with
    | .ok =>
      ⟨[(proc.pid, SIGTERM)],
       ["Successfully sent SIGTERM to " ++ proc.name ++ " PID " ++
          toString proc.pid,
        "Press any key to continue..."]⟩
    | .err m =>
      ⟨[(proc.pid, SIGTERM)],
       ["Failed to send SIGTERM to " ++ proc.name ++ " PID " ++
          toString proc.pid,
        "Error: " ++ m,
        "Press any key to continue..."]⟩
  else ⟨[], []⟩

/-! ## Helper lemmas -/

/-- Length of the row-drawing loop: it runs for its full budget `n` unless
the index bound `count` cuts it short. -/
theorem render_loop_length (count : Nat) (start : Int) :
    ∀ (n : Nat) (i : Int), (render_loop count start n i).length =
      min n ((count : Int) - start - i).toNat := by
  intro n
  induction n with
  | zero => intro i; simp [render_loop]
  | succ n ih =>
    intro i
    unfold render_loop
    split
    · simp only [List.length_cons, ih]
      omega
    · simp only [List.length_nil]
      omega

/-- The number of rows drawn is `min cap (count - start)` floored at 0. -/
theorem displayed_indices_length (count : Nat) (start cap : Int) :
    (displayed_indices count start cap).length =
      (min cap ((count : Int) - start)).toNat := by
  unfold displayed_indices
  rw [render_loop_length]
  omega

/-! ## Claim theorems -/

/-- C2 (corrected): the clamp step of main.c:485-491 leaves a negative
prior index untouched, so the claimed postcondition fails for
`index = -1`, `count = 5`. -/
theorem clamp_selection_counterexample :
    clamp_selection (-1) 5 = -1 ∧ ¬(0 ≤ clamp_selection (-1) 5) := by
  decide

/-- C2 (amended): for any prior index `≥ 0` and any count, after the clamp
the index satisfies `0 ≤ index < max 1 count`; it is 0 when the count is 0,
and an index already in range is left unchanged. -/
theorem clamp_selection_spec (index : Int) (count : Nat) (h : 0 ≤ index) :
    0 ≤ clamp_selection index count ∧
    clamp_selection index count < max 1 (count : Int) ∧
    (count = 0 → clamp_selection index count = 0) ∧
    (index < (count : Int) → clamp_selection index count = index) := by
  unfold clamp_selection
  split_ifs <;> refine ⟨?_, ?_, ?_, ?_⟩ <;> omega

/-- Scenario 4 instance of the clamp: index 4, count shrunk to 2. -/
theorem clamp_selection_spec_witness :
    0 ≤ clamp_selection 4 2 ∧
    clamp_selection 4 2 < max 1 ((2 : Nat) : Int) ∧
    ((2 : Nat) = 0 → clamp_selection 4 2 = 0) ∧
    ((4 : Int) < ((2 : Nat) : Int) → clamp_selection 4 2 = 4) :=
  clamp_selection_spec 4 2 (by decide)

/-- C3 (corrected): with `total_rows = 0`, `visible_capacity = 0` and
`selected_index = 0` (a reachable render state when the terminal is 7 rows
tall and the process list is empty), `selected_index < visible_capacity`
fails, so the claim predicts `start_index = 0 - 0 + 1 = 1`, but the code's
`count > 0` guard yields `start_index = 0`. -/
theorem viewport_start_counterexample :
    ¬((0 : Int) < 0) ∧ viewport_start 0 0 0 = 0 ∧
      ((0 : Int) - 0 + 1 = 1) ∧ viewport_start 0 0 0 ≠ 0 - 0 + 1 := by
  decide

/-- C3 (amended): for a nonnegative capacity, `start_index = 0` when the
selection fits, `start_index = selected - cap + 1` otherwise provided the
row count is positive (with the selection then the last visible row), the
drawn row count is `min cap (total - start)` floored at 0, and the
capacity derived from the terminal height is clamped to `≥ 0`. -/
theorem viewport_spec (count : Nat) (selected cap : Int) (_hcap : 0 ≤ cap) :
    (selected < cap → viewport_start count selected cap = 0) ∧
    (cap ≤ selected → 0 < count →
      viewport_start count selected cap = selected - cap + 1 ∧
      viewport_start count selected cap + cap - 1 = selected) ∧
    (count = 0 → viewport_start count selected cap = 0) ∧
    (displayed_indices count (viewport_start count selected cap) cap).length =
      (min cap ((count : Int) - viewport_start count selected cap)).toNat ∧
    (∀ my : Int, 0 ≤ visible_capacity my) := by
  refine ⟨?_, ?_, ?_, displayed_indices_length _ _ _, ?_⟩
  · intro h
    unfold viewport_start
    split_ifs <;> omega
  · intro h1 h2
    unfold viewport_start
    split_ifs <;> constructor <;> omega
  · intro h
    unfold viewport_start
    split_ifs <;> omega
  · intro my
    unfold visible_capacity
    split_ifs <;> omega

/-- Scenario 3 instance of the viewport: 50 rows, capacity 10, selection
45 → start 36, 10 rows drawn. -/
theorem viewport_spec_witness :
    viewport_start 50 45 10 = 45 - 10 + 1 ∧
    (displayed_indices 50 (viewport_start 50 45 10) 10).length =
      (min 10 ((50 : Int) - viewport_start 50 45 10)).toNat ∧
    viewport_start 50 45 10 = 36 ∧
    (displayed_indices 50 (viewport_start 50 45 10) 10).length = 10 := by
  have h := viewport_spec 50 45 10 (by decide)
  exact ⟨(h.2.1 (by decide) (by decide)).1, h.2.2.2.1, by decide, by decide⟩

/-- C4: `should_refresh` returns true iff 3000 ms have elapsed or the
manual flag is set; it writes `last_update := now` exactly on a true
result; called again at the same `now` after the caller clears the flag it
returns false. -/
theorem should_refresh_spec (st : AppState) (now : Int) :
    ((should_refresh st now).1 = true ↔
      (REFRESH_INTERVAL_MS ≤ now - st.last_update ∨
        st.needs_refresh = true)) ∧
    ((should_refresh st now).1 = true →
      (should_refresh st now).2 = { st with last_update := now }) ∧
    ((should_refresh st now).1 = false → (should_refresh st now).2 = st) ∧
    (st.needs_refresh = true →
      (should_refresh st now).1 = true ∧
      (should_refresh
          { (should_refresh st now).2 with needs_refresh := false } now).1 =
        false) := by
  refine ⟨?_, ?_, ?_, fun hf => ⟨?_, ?_⟩⟩
  · unfold should_refresh
    split_ifs with h <;>
      simp only [Bool.or_eq_true, decide_eq_true_eq, ge_iff_le] at h <;>
      simp [h]
  · unfold should_refresh
    split_ifs with h
    · intro _; rfl
    · intro hh; simp at hh
  · unfold should_refresh
    split_ifs with h
    · intro hh; simp at hh
    · intro _; rfl
  · simp [should_refresh, hf]
  · have h2 : (should_refresh st now).2 = { st with last_update := now } := by
      simp [should_refresh, hf]
    rw [h2]
    simp [should_refresh, REFRESH_INTERVAL_MS]

/-- Instance of the refresh idempotence scenario: manual flag set at
`now = 0`. -/
theorem should_refresh_spec_witness :
    (should_refresh ⟨0, false, true, 0⟩ 0).1 = true ∧
    (should_refresh
        { (should_refresh ⟨0, false, true, 0⟩ 0).2 with
            needs_refresh := false } 0).1 = false :=
  (should_refresh_spec ⟨0, false, true, 0⟩ 0).2.2.2 rfl

/-- C8: confirming the dialog with `'1'` submits exactly one SIGTERM to the
selected pid and displays the outcome (the failure text carrying the OS
error description); any other key submits nothing and displays nothing. -/
theorem terminate_dialog_spec (proc : ProcessInfo) (choice : Int)
    (kr : KillResult) :
    (choice = 49 →
      (terminate_process_with_dialog proc choice kr).signals_sent =
        [(proc.pid, SIGTERM)] ∧
      (kr = KillResult.ok →
        ("Successfully sent SIGTERM to " ++ proc.name ++ " PID " ++
            toString proc.pid) ∈
          (terminate_process_with_dialog proc choice kr).messages) ∧
      (∀ m, kr = KillResult.err m →
        ("Failed to send SIGTERM to " ++ proc.name ++ " PID " ++
            toString proc.pid) ∈
          (terminate_process_with_dialog proc choice kr).messages ∧
        ("Error: " ++ m) ∈
          (terminate_process_with_dialog proc choice kr).messages)) ∧
    (choice ≠ 49 →
      (terminate_process_with_dialog proc choice kr).signals_sent = [] ∧
      (terminate_process_with_dialog proc choice kr).messages = []) := by
  unfold terminate_process_with_dialog
  cases kr <;> split_ifs <;> simp_all

/-- Scenario 5 instance of the dialog: confirmed kill of pid 5 failing with
"Operation not permitted". -/
theorem terminate_dialog_spec_witness :
    (terminate_process_with_dialog ⟨5, "bash", 'S', 100⟩ 49
        (KillResult.err "Operation not permitted")).signals_sent =
      [(5, SIGTERM)] ∧
    ("Error: " ++ "Operation not permitted") ∈
      (terminate_process_with_dialog ⟨5, "bash", 'S', 100⟩ 49
        (KillResult.err "Operation not permitted")).messages := by
  have h := (terminate_dialog_spec ⟨5, "bash", 'S', 100⟩ 49
    (KillResult.err "Operation not permitted")).1 rfl
  exact ⟨h.1, (h.2.2 _ rfl).2⟩

/-- C10: the kill branch fires only with the selection strictly inside the
snapshot, so the indexed access is in bounds; with an empty snapshot and
the (invariant) zero selection, every key except quit/refresh leaves the
state unchanged, the selection stays 0, and no dialog is initiated. -/
theorem handle_input_spec (st : AppState) (count : Nat) (ch : Int) :
    (∀ i, (handle_user_input st count ch).2 = some i →
      0 < count ∧ i < count) ∧
    (count = 0 → st.selected_index = 0 →
      (handle_user_input st count ch).1.selected_index = 0 ∧
      (handle_user_input st count ch).2 = none ∧
      (¬(ch = 113 ∨ ch = 81 ∨ ch = 114 ∨ ch = 82) →
        (handle_user_input st count ch).1 = st)) := by
  unfold handle_user_input
  split_ifs <;> refine ⟨?_, ?_⟩ <;> intro h <;> simp_all <;> omega

/-- Instance of the empty-snapshot safety: KEY_UP with no processes. -/
theorem handle_input_spec_witness :
    (handle_user_input ⟨0, false, false, 0⟩ 0 259).1 = ⟨0, false, false, 0⟩ ∧
    (handle_user_input ⟨0, false, false, 0⟩ 0 259).2 = none := by
  have h := (handle_input_spec ⟨0, false, false, 0⟩ 0 259).2 rfl rfl
  exact ⟨h.2.2 (by decide), h.2.1⟩

/-- A line without the `Name:` prefix leaves the name field alone. -/
theorem scan_line_preserve_name (l : String) (st : ScanSt)
    (h : strncmp_eq l "Name:" = false) : (scan_line l st).name = st.name := by
  unfold scan_line
  split_ifs <;> first | rfl | (split <;> rfl) | simp_all

/-- A line without the `State:` prefix leaves the state field alone. -/
theorem scan_line_preserve_state (l : String) (st : ScanSt)
    (h : strncmp_eq l "State:" = false) : (scan_line l st).state = st.state := by
  unfold scan_line
  split_ifs <;> first | rfl | (split <;> rfl) | simp_all

/-- A line without the `VmRSS:` prefix leaves the rss field alone. -/
theorem scan_line_preserve_rss (l : String) (st : ScanSt)
    (h : strncmp_eq l "VmRSS:" = false) : (scan_line l st).rss = st.rss := by
  unfold scan_line
  split_ifs <;> first | rfl | (split <;> rfl) | simp_all

/-- Once every field is found, a further line changes nothing. -/
theorem scan_line_stable (l : String) (st : ScanSt)
    (h : st.allFound = true) : scan_line l st = st := by
  unfold ScanSt.allFound at h
  simp only [Bool.and_eq_true, Option.isSome_iff_exists] at h
  obtain ⟨⟨⟨n, hn⟩, ⟨c, hc⟩⟩, ⟨r, hr⟩⟩ := h
  unfold scan_line
  split_ifs <;> simp_all

theorem scan_lines_preserve_name (ls : List String) (st : ScanSt)
    (h : ∀ l ∈ ls, strncmp_eq l "Name:" = false) :
    (scan_lines ls st).name = st.name := by
  induction ls generalizing st with
  | nil => rfl
  | cons l ls ih =>
    have hl := scan_line_preserve_name l st (h l (.head _))
    simp only [scan_lines]
    split
    · exact hl
    · rw [ih _ (fun x hx => h x (.tail _ hx))]
      exact hl

theorem scan_lines_preserve_state (ls : List String) (st : ScanSt)
    (h : ∀ l ∈ ls, strncmp_eq l "State:" = false) :
    (scan_lines ls st).state = st.state := by
  induction ls generalizing st with
  | nil => rfl
  | cons l ls ih =>
    have hl := scan_line_preserve_state l st (h l (.head _))
    simp only [scan_lines]
    split
    · exact hl
    · rw [ih _ (fun x hx => h x (.tail _ hx))]
      exact hl

theorem scan_lines_preserve_rss (ls : List String) (st : ScanSt)
    (h : ∀ l ∈ ls, strncmp_eq l "VmRSS:" = false) :
    (scan_lines ls st).rss = st.rss := by
  induction ls generalizing st with
  | nil => rfl
  | cons l ls ih =>
    have hl := scan_line_preserve_rss l st (h l (.head _))
    simp only [scan_lines]
    split
    · exact hl
    · rw [ih _ (fun x hx => h x (.tail _ hx))]
      exact hl

/-- A scan that has found all three fields ignores appended lines: the
`break` of main.c:119-121. -/
theorem scan_lines_break (ls more : List String) (st : ScanSt)
    (h : (scan_lines ls st).allFound = true) :
    scan_lines (ls ++ more) st = scan_lines ls st := by
  induction ls generalizing st with
  | nil =>
    simp only [scan_lines, List.nil_append]
    cases more with
    | nil => rfl
    | cons m more =>
      simp only [scan_lines] at h ⊢
      rw [scan_line_stable m st h]
      simp [h]
  | cons l ls ih =>
    simp only [List.cons_append, scan_lines] at h ⊢
    split
    · rfl
    · rename_i h2
      simp only [h2, if_false] at h
      exact ih _ h

/-- C6: with the status file openable (and a genuine pid), the read always
succeeds; absent fields fall back to the sentinels `"?"`, `'?'` and `0`; an
unopenable file is the only `NotFound`; and once all three fields are
found, the remaining lines of the file are never examined. -/
theorem read_process_info_spec (pid : Int) (ls more : List String)
    (hpid : 0 < pid) :
    (read_process_info pid (some ls)).isSome = true ∧
    ((∀ l ∈ ls, strncmp_eq l "Name:" = false) →
      ((read_process_info pid (some ls)).getD procDefault).name = "?") ∧
    ((∀ l ∈ ls, strncmp_eq l "State:" = false) →
      ((read_process_info pid (some ls)).getD procDefault).state = '?') ∧
    ((∀ l ∈ ls, strncmp_eq l "VmRSS:" = false) →
      ((read_process_info pid (some ls)).getD procDefault).vm_rss_kb = 0) ∧
    read_process_info pid none = none ∧
    ((scan_lines ls scanInit).allFound = true →
      read_process_info pid (some (ls ++ more)) =
        read_process_info pid (some ls)) := by
  have hp : ¬(pid ≤ 0) := by omega
  refine ⟨?_, ?_, ?_, ?_, ?_, ?_⟩
  · simp [read_process_info, hp]
  · intro h
    have hn : (scan_lines ls scanInit).name = none :=
      scan_lines_preserve_name ls scanInit h
    simp [read_process_info, hp, hn]
  · intro h
    have hn : (scan_lines ls scanInit).state = none :=
      scan_lines_preserve_state ls scanInit h
    simp [read_process_info, hp, hn]
  · intro h
    have hn : (scan_lines ls scanInit).rss = none :=
      scan_lines_preserve_rss ls scanInit h
    simp [read_process_info, hp, hn]
  · simp [read_process_info, hp]
  · intro h
    simp [read_process_info, hp, scan_lines_break ls more scanInit h]

/-- Instance of the read: a junk-only status file yields all three
sentinels, and a complete status file makes trailing lines irrelevant. -/
theorem read_process_info_spec_witness :
    ((read_process_info 1 (some ["garbage"])).getD procDefault).name = "?" ∧
    ((read_process_info 1 (some ["garbage"])).getD procDefault).state = '?' ∧
    ((read_process_info 1 (some ["garbage"])).getD procDefault).vm_rss_kb
      = 0 ∧
    read_process_info 1 (some (["Name:\ta", "State:\tR", "VmRSS:\t2 kB"] ++
        ["Threads:\t9"])) =
      read_process_info 1 (some ["Name:\ta", "State:\tR", "VmRSS:\t2 kB"]) := by
  have h1 := read_process_info_spec 1 ["garbage"] [] (by decide)
  have h2 := read_process_info_spec 1 ["Name:\ta", "State:\tR", "VmRSS:\t2 kB"]
    ["Threads:\t9"] (by decide)
  exact ⟨h1.2.1 (by decide), h1.2.2.1 (by decide), h1.2.2.2.1 (by decide),
    h2.2.2.2.2.2 (by decide)⟩

/-- A meminfo line leaves alone every field whose key it does not carry. -/
theorem parse_mem_line_preserve (m : SystemMemoryInfo) (l : String) :
    (strncmp_eq l "MemTotal:" = false →
      (parse_mem_line m l).mem_total_kb = m.mem_total_kb) ∧
    (strncmp_eq l "MemFree:" = false →
      (parse_mem_line m l).mem_free_kb = m.mem_free_kb) ∧
    (strncmp_eq l "MemAvailable:" = false →
      (parse_mem_line m l).mem_available_kb = m.mem_available_kb) ∧
    (strncmp_eq l "Cached:" = false →
      (parse_mem_line m l).mem_cached_kb = m.mem_cached_kb) ∧
    (strncmp_eq l "SwapTotal:" = false →
      (parse_mem_line m l).swap_total_kb = m.swap_total_kb) ∧
    (strncmp_eq l "SwapFree:" = false →
      (parse_mem_line m l).swap_free_kb = m.swap_free_kb) ∧
    (strncmp_eq l "Buffers:" = false →
      (parse_mem_line m l).buffers_kb = m.buffers_kb) := by
  unfold parse_mem_line
  split_ifs <;> refine ⟨?_, ?_, ?_, ?_, ?_, ?_, ?_⟩ <;> intro h <;> simp_all

theorem foldl_mem_preserve (ls : List String) (m : SystemMemoryInfo) :
    ((∀ l ∈ ls, strncmp_eq l "MemTotal:" = false) →
      (ls.foldl parse_mem_line m).mem_total_kb = m.mem_total_kb) ∧
    ((∀ l ∈ ls, strncmp_eq l "MemFree:" = false) →
      (ls.foldl parse_mem_line m).mem_free_kb = m.mem_free_kb) ∧
    ((∀ l ∈ ls, strncmp_eq l "MemAvailable:" = false) →
      (ls.foldl parse_mem_line m).mem_available_kb = m.mem_available_kb) ∧
    ((∀ l ∈ ls, strncmp_eq l "Cached:" = false) →
      (ls.foldl parse_mem_line m).mem_cached_kb = m.mem_cached_kb) ∧
    ((∀ l ∈ ls, strncmp_eq l "SwapTotal:" = false) →
      (ls.foldl parse_mem_line m).swap_total_kb = m.swap_total_kb) ∧
    ((∀ l ∈ ls, strncmp_eq l "SwapFree:" = false) →
      (ls.foldl parse_mem_line m).swap_free_kb = m.swap_free_kb) ∧
    ((∀ l ∈ ls, strncmp_eq l "Buffers:" = false) →
      (ls.foldl parse_mem_line m).buffers_kb = m.buffers_kb) := by
  induction ls generalizing m with
  | nil => simp
  | cons l ls ih =>
    have hl := parse_mem_line_preserve m l
    have hi := ih (parse_mem_line m l)
    refine ⟨?_, ?_, ?_, ?_, ?_, ?_, ?_⟩ <;> intro h <;>
      simp only [List.foldl_cons]
    · rw [hi.1 (fun x hx => h x (.tail _ hx)), hl.1 (h l (.head _))]
    · rw [hi.2.1 (fun x hx => h x (.tail _ hx)), hl.2.1 (h l (.head _))]
    · rw [hi.2.2.1 (fun x hx => h x (.tail _ hx)), hl.2.2.1 (h l (.head _))]
    · rw [hi.2.2.2.1 (fun x hx => h x (.tail _ hx)),
        hl.2.2.2.1 (h l (.head _))]
    · rw [hi.2.2.2.2.1 (fun x hx => h x (.tail _ hx)),
        hl.2.2.2.2.1 (h l (.head _))]
    · rw [hi.2.2.2.2.2.1 (fun x hx => h x (.tail _ hx)),
        hl.2.2.2.2.2.1 (h l (.head _))]
    · rw [hi.2.2.2.2.2.2 (fun x hx => h x (.tail _ hx)),
        hl.2.2.2.2.2.2 (h l (.head _))]

/-- C7: the render-time derived quantities are clamped to `≥ 0` for every
memory sample, and a recognized key absent from the memory source leaves
its field at the zero default (shown for each of the seven keys), so the
derivations never underflow. -/
theorem memory_spec (m : SystemMemoryInfo) (ls : List String) :
    0 ≤ mem_used_mb m ∧ 0 ≤ swap_used_mb m ∧
    ((∀ l ∈ ls, strncmp_eq l "SwapFree:" = false) →
      ((read_system_memory_info (some ls)).getD memZero).swap_free_kb = 0) ∧
    ((∀ l ∈ ls, strncmp_eq l "SwapTotal:" = false) →
      ((read_system_memory_info (some ls)).getD memZero).swap_total_kb = 0) ∧
    ((∀ l ∈ ls, strncmp_eq l "MemTotal:" = false) →
      ((read_system_memory_info (some ls)).getD memZero).mem_total_kb = 0) ∧
    ((∀ l ∈ ls, strncmp_eq l "MemFree:" = false) →
      ((read_system_memory_info (some ls)).getD memZero).mem_free_kb = 0) ∧
    ((∀ l ∈ ls, strncmp_eq l "MemAvailable:" = false) →
      ((read_system_memory_info (some ls)).getD memZero).mem_available_kb
        = 0) ∧
    ((∀ l ∈ ls, strncmp_eq l "Cached:" = false) →
      ((read_system_memory_info (some ls)).getD memZero).mem_cached_kb = 0) ∧
    ((∀ l ∈ ls, strncmp_eq l "Buffers:" = false) →
      ((read_system_memory_info (some ls)).getD memZero).buffers_kb = 0) := by
  have hf := foldl_mem_preserve ls memZero
  refine ⟨?_, ?_, ?_, ?_, ?_, ?_, ?_, ?_, ?_⟩
  · unfold mem_used_mb
    dsimp only
    split_ifs with h
    · exact le_refl 0
    · linarith
  · unfold swap_used_mb
    dsimp only
    split_ifs with h
    · exact le_refl 0
    · linarith
  · intro h
    simpa [read_system_memory_info] using hf.2.2.2.2.2.1 h
  · intro h
    simpa [read_system_memory_info] using hf.2.2.2.2.1 h
  · intro h
    simpa [read_system_memory_info] using hf.1 h
  · intro h
    simpa [read_system_memory_info] using hf.2.1 h
  · intro h
    simpa [read_system_memory_info] using hf.2.2.1 h
  · intro h
    simpa [read_system_memory_info] using hf.2.2.2.1 h
  · intro h
    simpa [read_system_memory_info] using hf.2.2.2.2.2.2 h

/-- Scenario 2 instance: meminfo without a `SwapFree` line leaves
`swap_free_kb = 0`, and the derived used quantities of the parsed (and of a
total < free) sample stay `≥ 0`. -/
theorem memory_spec_witness :
    ((read_system_memory_info
        (some ["MemTotal: 1024", "MemFree: 2048", "SwapTotal: 100"])).getD
      memZero).swap_free_kb = 0 ∧
    0 ≤ mem_used_mb ((read_system_memory_info
        (some ["MemTotal: 1024", "MemFree: 2048", "SwapTotal: 100"])).getD
      memZero) ∧
    0 ≤ swap_used_mb ((read_system_memory_info
        (some ["MemTotal: 1024", "MemFree: 2048", "SwapTotal: 100"])).getD
      memZero) := by
  have h := memory_spec ((read_system_memory_info
      (some ["MemTotal: 1024", "MemFree: 2048", "SwapTotal: 100"])).getD
    memZero) ["MemTotal: 1024", "MemFree: 2048", "SwapTotal: 100"]
  exact ⟨h.2.2.1 (by decide), h.1, h.2.1⟩

/-- A pid whose status file cannot be opened never yields a record. -/
theorem read_process_info_none (pid : Int) :
    read_process_info pid none = none := by
  unfold read_process_info
  split_ifs <;> rfl

/-- The snapshot accumulated by the collection loop is exactly the per-entry
survivors, in `readdir` order. -/
theorem collect_acc (f : Int → Option (List String)) (es : List String) :
    ∀ st : CollectSt, (es.foldl (collect_step f) st).acc =
      st.acc ++ es.filterMap (cand_read f) := by
  induction es with
  | nil => intro st; simp
  | cons e es ih =>
    intro st
    simp only [List.foldl_cons, List.filterMap_cons, ih]
    by_cases h1 : is_numeric_string e = true
    · by_cases h2 : atoi e ≤ 0
      · have hc : cand_read f e = none := by
          unfold cand_read is_candidate
          rw [if_neg]
          simp only [Bool.and_eq_true, decide_eq_true_eq, h1, true_and]
          omega
        have hs : collect_step f st e = st := by
          unfold collect_step
          simp [h1, h2]
        rw [hs, hc]
      · have h3 : (0 : Int) < atoi e := by omega
        have hcand : is_candidate e = true := by
          simp [is_candidate, h1, h3]
        cases hr : read_process_info (atoi e) (f (atoi e)) with
        | none =>
          have hc : cand_read f e = none := by
            simp [cand_read, hcand, hr]
          have hs : (collect_step f st e).acc = st.acc := by
            unfold collect_step
            simp only [h1, Bool.not_true, Bool.false_eq_true, if_false]
            rw [if_neg h2]
            split_ifs <;> simp [hr]
          rw [hs, hc]
        | some p =>
          have hc : cand_read f e = some p := by
            simp [cand_read, hcand, hr]
          have hs : (collect_step f st e).acc = st.acc ++ [p] := by
            unfold collect_step
            simp only [h1, Bool.not_true, Bool.false_eq_true, if_false]
            rw [if_neg h2]
            split_ifs <;> simp [hr]
          rw [hs, hc]
          simp
    · have hc : cand_read f e = none := by
        simp [cand_read, is_candidate, h1]
      have hs : collect_step f st e = st := by
        unfold collect_step
        simp [h1]
      rw [hs, hc]

/-- When every candidate's status read succeeds, the survivors are exactly
the filtered entries mapped to their records. -/
theorem filterMap_cand_eq_map (f : Int → Option (List String))
    (es : List String)
    (hread : ∀ e ∈ es, is_candidate e = true → (f (atoi e)).isSome = true) :
    es.filterMap (cand_read f) = (es.filter is_candidate).map
      (fun e => (read_process_info (atoi e) (f (atoi e))).getD procDefault) := by
  induction es with
  | nil => simp
  | cons e es ih =>
    have ih2 := ih (fun x hx hc => hread x (.tail _ hx) hc)
    by_cases hc : is_candidate e = true
    · have hs := hread e (.head _) hc
      obtain ⟨ls, hls⟩ := Option.isSome_iff_exists.mp hs
      have h3 : (0 : Int) < atoi e := by
        have h4 := hc
        unfold is_candidate at h4
        simp only [Bool.and_eq_true, decide_eq_true_eq] at h4
        exact h4.2
      have hrs : (read_process_info (atoi e) (f (atoi e))).isSome = true := by
        rw [hls]
        unfold read_process_info
        rw [if_neg (by omega)]
        rfl
      obtain ⟨p, hp⟩ := Option.isSome_iff_exists.mp hrs
      simp only [List.filterMap_cons, List.filter_cons, hc, if_true,
        List.map_cons]
      have hcr : cand_read f e = some p := by
        simp [cand_read, hc, hp]
      rw [hcr, hp, ih2]
      simp
    · simp only [List.filterMap_cons, List.filter_cons, hc, if_false]
      have hcr : cand_read f e = none := by
        simp [cand_read, hc]
      rw [hcr, ih2]
      simp

/-- C1: when the namespace opens and every candidate's status read
succeeds, the snapshot holds exactly one record per entry whose name is
non-empty, all-digit and parses to a pid > 0, in discovery order. -/
theorem collect_processes_spec (d : ProcDir) (hopen : d.canOpen = true)
    (hread : ∀ e ∈ d.entries, is_candidate e = true →
      (d.statusOf (atoi e)).isSome = true) :
    collect_processes d = some ((d.entries.filter is_candidate).map
      (fun e => (read_process_info (atoi e) (d.statusOf (atoi e))).getD
        procDefault)) := by
  unfold collect_processes collect_run
  simp only [hopen, if_true]
  rw [collect_acc, filterMap_cand_eq_map d.statusOf d.entries hread]
  simp [collectInit]

/-- Scenario 1 instance: entries 1, 2, abc, self, 7 with all candidates
readable yield the three records 1, 2, 7 in order. -/
theorem collect_processes_spec_witness :
    collect_processes ⟨true, ["1", "2", "abc", "self", "7"],
        fun _ => some []⟩ =
      some [⟨1, "?", '?', 0⟩, ⟨2, "?", '?', 0⟩, ⟨7, "?", '?', 0⟩] := by
  have h := collect_processes_spec
    ⟨true, ["1", "2", "abc", "self", "7"], fun _ => some []⟩ rfl (by decide)
  rw [h]
  rfl

/-- C5: the collection fails exactly when the namespace cannot be opened;
an entry whose status read fails is skipped silently, leaving the same
snapshot as if the entry had not been listed, and the scan still
succeeds. -/
theorem collect_failure_spec (d : ProcDir) (pre post : List String)
    (e : String) (hsplit : d.entries = pre ++ e :: post)
    (hfail : d.statusOf (atoi e) = none) :
    (collect_processes d = none ↔ d.canOpen = false) ∧
    collect_processes d =
      collect_processes ⟨d.canOpen, pre ++ post, d.statusOf⟩ := by
  have hskip : cand_read d.statusOf e = none := by
    unfold cand_read
    split_ifs with hc
    · rw [hfail]
      exact read_process_info_none _
    · rfl
  constructor
  · unfold collect_processes
    cases h : d.canOpen <;> simp [h]
  · unfold collect_processes
    cases h : d.canOpen <;> simp only [h, if_true, if_false, Bool.false_eq_true]
    unfold collect_run
    simp only [hsplit]
    rw [collect_acc, collect_acc]
    simp [List.filterMap_append, hskip]

/-- Instance of the failure contract: a lone vanishing pid 3 leaves the
snapshot empty but the scan successful. -/
theorem collect_failure_spec_witness :
    collect_processes ⟨true, ["3"], fun _ => none⟩ =
      collect_processes ⟨true, [], fun _ => none⟩ ∧
    collect_processes ⟨true, ["3"], fun _ => none⟩ ≠ none := by
  have h := collect_failure_spec ⟨true, ["3"], fun _ => none⟩ [] [] "3"
    rfl rfl
  exact ⟨h.2, fun hn => by simpa using h.1.mp hn⟩

/-- Loop invariant of the growth policy, parameterized by the number `k` of
candidate entries processed so far: the capacity is the initial one doubled
once per reallocation, the element count fits and is bounded by `k`, and
the `r`-th reallocation can only have fired after more than `C * 2 ^ (r-1)`
candidates. -/
def collectInv (st : CollectSt) (k : Nat) : Prop :=
  st.capacity = INITIAL_CAPACITY_SIZE * 2 ^ st.reallocs ∧
  st.size ≤ st.capacity ∧
  st.size ≤ k ∧
  (st.reallocs = 0 ∨ INITIAL_CAPACITY_SIZE * 2 ^ (st.reallocs - 1) < k)

theorem collect_step_inv (f : Int → Option (List String)) (st : CollectSt)
    (e : String) (k : Nat) (h : collectInv st k) :
    collectInv (collect_step f st e)
      (k + if is_candidate e then 1 else 0) := by
  obtain ⟨h1, h2, h3, h4⟩ := h
  have hC : INITIAL_CAPACITY_SIZE = 128 := rfl
  rw [hC] at h1 h4
  have hcappos : 0 < st.capacity := by
    rw [h1]
    exact Nat.mul_pos (by norm_num) (pow_pos (by norm_num) _)
  by_cases hc : is_candidate e = true
  · have hnum : is_numeric_string e = true := by
      unfold is_candidate at hc
      exact ((Bool.and_eq_true _ _).mp hc).1
    have hpos : (0 : Int) < atoi e := by
      unfold is_candidate at hc
      simpa using ((Bool.and_eq_true _ _).mp hc).2
    simp only [hc, if_true]
    unfold collect_step
    simp only [hnum, Bool.not_true, Bool.false_eq_true, if_false]
    rw [if_neg (by omega : ¬(atoi e ≤ 0))]
    cases hread : read_process_info (atoi e) (f (atoi e)) with
    | none =>
      dsimp only
      by_cases hfull : st.size ≥ st.capacity
      · rw [if_pos hfull]
        refine ⟨?_, ?_, ?_, Or.inr ?_⟩ <;> dsimp only
        · rw [h1, hC, pow_succ]
          ring
        · omega
        · omega
        · simp only [Nat.add_sub_cancel]
          rw [hC, ← h1]
          omega
      · rw [if_neg hfull]
        refine ⟨by rw [hC]; exact h1, h2, by omega, ?_⟩
        rcases h4 with h4 | h4
        · exact Or.inl h4
        · refine Or.inr ?_
          rw [hC]
          omega
    | some p =>
      dsimp only
      by_cases hfull : st.size ≥ st.capacity
      · rw [if_pos hfull]
        refine ⟨?_, ?_, ?_, Or.inr ?_⟩ <;> dsimp only
        · rw [h1, hC, pow_succ]
          ring
        · omega
        · omega
        · simp only [Nat.add_sub_cancel]
          rw [hC, ← h1]
          omega
      · rw [if_neg hfull]
        refine ⟨by dsimp only; rw [hC]; exact h1, by dsimp only; omega,
          by dsimp only; omega, ?_⟩
        rcases h4 with h4 | h4
        · exact Or.inl h4
        · refine Or.inr ?_
          dsimp only
          rw [hC]
          omega
  · have hstep : collect_step f st e = st := by
      unfold collect_step
      unfold is_candidate at hc
      simp only [Bool.and_eq_true, decide_eq_true_eq, not_and] at hc
      by_cases hnum : is_numeric_string e = true
      · have := hc hnum
        simp [hnum, show atoi e ≤ 0 from by omega]
      · simp [hnum]
    simp only [hc, if_false, Nat.add_zero, hstep]
    refine ⟨by rw [hC]; exact h1, h2, h3, ?_⟩
    rcases h4 with h4 | h4
    · exact Or.inl h4
    · refine Or.inr ?_
      rw [hC]
      exact h4

theorem collect_fold_inv (f : Int → Option (List String)) (es : List String) :
    ∀ (st : CollectSt) (k : Nat), collectInv st k →
      collectInv (es.foldl (collect_step f) st)
        (k + (es.filter is_candidate).length) := by
  induction es with
  | nil =>
    intro st k h
    simpa using h
  | cons e es ih =>
    intro st k h
    have hstep := collect_step_inv f st e k h
    by_cases hc : is_candidate e = true
    · simp only [List.foldl_cons, List.filter_cons, hc, if_true,
        List.length_cons]
      have hrec := ih (collect_step f st e) (k + 1) (by simpa [hc] using hstep)
      have harith : k + ((es.filter is_candidate).length + 1) =
          (k + 1) + (es.filter is_candidate).length := by omega
      rw [harith]
      exact hrec
    · simp only [List.foldl_cons, List.filter_cons, hc, if_false]
      exact ih (collect_step f st e) k (by simpa [hc] using hstep)

/-- C9 (amended): the buffer grows only by doubling (after `r`
reallocations the capacity is `128 * 2 ^ r`), and a scan whose namespace
listing has `K` candidate entries (numeric names parsing to a pid > 0)
performs at most `⌈log2 ⌈K / 128⌉⌉` reallocations — the bound holds for
the candidate count, not the surviving-record count. -/
theorem collect_growth (d : ProcDir) :
    (collect_run d).capacity =
      INITIAL_CAPACITY_SIZE * 2 ^ (collect_run d).reallocs ∧
    (collect_run d).reallocs ≤ Nat.clog 2
      (((d.entries.filter is_candidate).length +
        (INITIAL_CAPACITY_SIZE - 1)) / INITIAL_CAPACITY_SIZE) := by
  have h0 : collectInv collectInit 0 := by
    refine ⟨rfl, ?_, Nat.le_refl 0, Or.inl rfl⟩
    simp [collectInit, INITIAL_CAPACITY_SIZE]
  have h : collectInv (collect_run d)
      (0 + (d.entries.filter is_candidate).length) :=
    collect_fold_inv d.statusOf d.entries collectInit 0 h0
  rw [Nat.zero_add] at h
  obtain ⟨h1, _h2, _h3, h4⟩ := h
  refine ⟨h1, ?_⟩
  rcases h4 with h4 | h4
  · rw [h4]
    exact Nat.zero_le _
  · have hc : INITIAL_CAPACITY_SIZE = 128 := rfl
    rw [hc] at h4 ⊢
    have h5 : 128 * 2 ^ ((collect_run d).reallocs - 1) + 1 ≤
        (d.entries.filter is_candidate).length := h4
    have h6 : (128 * (2 ^ ((collect_run d).reallocs - 1) + 1)) / 128 ≤
        ((d.entries.filter is_candidate).length + (128 - 1)) / 128 :=
      Nat.div_le_div_right (by omega)
    rw [Nat.mul_div_cancel_left _ (by norm_num)] at h6
    have h7 : 2 ^ ((collect_run d).reallocs - 1) <
        ((d.entries.filter is_candidate).length + (128 - 1)) / 128 := by
      omega
    have h8 := (Nat.pow_lt_iff_lt_clog (by norm_num)).mp h7
    omega

/-- A namespace with 129 candidates of which exactly the first 128 are
readable: the 129th candidate arrives with the buffer full, forcing a
doubling even though its read then fails, so only 128 records survive. -/
def fullThenVanish : ProcDir :=
  ⟨true, (List.range 129).map (fun i => toString (i + 1)),
   fun p => if p ≤ 128 then some [] else none⟩

set_option maxRecDepth 100000 in
/-- C9 (counterexample): on `fullThenVanish` the snapshot has `N = 128`
surviving records, so the claimed bound is `⌈log2 (128 / 128)⌉ = 0`
reallocations, yet the scan performs one. -/
theorem collect_growth_counterexample :
    (collect_run fullThenVanish).size = 128 ∧
    (collect_run fullThenVanish).acc.length = 128 ∧
    ¬((collect_run fullThenVanish).reallocs ≤ Nat.clog 2
      ((collect_run fullThenVanish).size / INITIAL_CAPACITY_SIZE)) := by
  have hs : (collect_run fullThenVanish).size = 128 := by rfl
  have ha : (collect_run fullThenVanish).acc.length = 128 := by rfl
  have hr : (collect_run fullThenVanish).reallocs = 1 := by rfl
  refine ⟨hs, ha, ?_⟩
  rw [hr, hs]
  have hd : (128 : Nat) / INITIAL_CAPACITY_SIZE = 1 := by rfl
  rw [hd, Nat.clog_one_right]
  omega

end Ltop
